import Mathlib

/-!
Verification of the natural-language specification of the
`ExcelOperator` utility class (file `src/excel_operator.py`) against a
shallow embedding of its code in Lean 4.

Modelling conventions:
* Python strings are `Str := List Char`.
* A spreadsheet file on disk is `Option Workbook`; `none` models a file
  that cannot be opened (missing/locked/corrupted), so `Workbooks.Open`
  and `openpyxl.load_workbook` raise exactly when the disk value is `none`.
* A Python function that can raise returns `PyResult α`; operations with
  an observable effect on the automation application additionally return
  the final `ComState` (disk content after any save, whether the workbook
  handle is still open, whether the Excel application instance is still
  running).
* Python `re` is modelled for the fragment of patterns the repository can
  produce: literal characters, `.`, backslash-escaped punctuation, a
  leading `^` anchor and a trailing `$` anchor.  `parsePattern` returns
  `none` outside this fragment (covering both invalid patterns and regex
  constructs not modelled here); `$` matches at the end of the string or
  just before a final newline, and `.` matches any character except a
  newline, as in Python without flags.
* `re.escape` is modelled after CPython >= 3.7, which prefixes a backslash
  exactly to the characters in its special-character set.
* Exact arithmetic over `ℚ` stands in for Python floats in the grid-sizing
  ratios, and `Char.toLower` (ASCII) stands in for `str.lower`.
-/

namespace ExcelOp

abbrev Str := List Char

/-- Python exception kinds the modelled operations can raise. -/
inductive PyError where
  | openFailed
  | valueError
  | keyError
  | regexError
  | comError
  deriving DecidableEq, Repr

/-- Result of a Python call: a returned value or a raised exception. -/
inductive PyResult (α : Type) where
  | ok (value : α)
  | raised (err : PyError)
  deriving DecidableEq, Repr

/-! ### A model of the Python `re` fragment used by the code -/

/-- One element of a compiled pattern: a literal character or `.`. -/
inductive RElem where
  | lit (c : Char)
  | dot
  deriving DecidableEq, Repr

/-- A compiled pattern in the modelled fragment: an optional `^` anchor,
a sequence of single-character matchers, and an optional `$` anchor. -/
structure SimplePattern where
  anchoredStart : Bool
  elems : List RElem
  anchoredEnd : Bool
  deriving DecidableEq, Repr

/-- Regex metacharacters: a pattern containing one of these unescaped is
outside the modelled fragment (except `^` first and `$` last). -/
def metaChars : Str := "*+?()[]{}|^$\\.".data

def isMetaChar (c : Char) : Bool := decide (c ∈ metaChars)

/-- The special set of CPython >= 3.7 `re.escape`: exactly these characters
get a backslash prefix. -/
def specialChars : Str := "()[]{}?*+-|^$\\.&~# \t\n\r\x0b\x0c".data

def isSpecialChar (c : Char) : Bool := decide (c ∈ specialChars)

/-- `re.escape` (CPython >= 3.7): backslash-prefix every special character. -/
def pyEscape (s : Str) : Str :=
  s.foldr (fun c acc => (if isSpecialChar c then ['\\', c] else [c]) ++ acc) []

/-- Parse the body of a pattern (everything after a possible leading `^`).
Returns the element list and whether the body ends with a `$` anchor;
`none` when the pattern is outside the modelled fragment. -/
def parseBody : Str → Option (List RElem × Bool)
  | [] => some ([], false)
  | c :: rest =>
    if c = '\\' then
      match rest with
      | [] => none
      | d :: rest2 =>
        if d.isAlpha || d.isDigit then none
        else (parseBody rest2).map (fun pr => (RElem.lit d :: pr.1, pr.2))
    else if c = '$' then
      if rest = [] then some ([], true) else none
    else if c = '.' then
      (parseBody rest).map (fun pr => (RElem.dot :: pr.1, pr.2))
    else if isMetaChar c then none
    else (parseBody rest).map (fun pr => (RElem.lit c :: pr.1, pr.2))

/-- `re.compile` on the modelled fragment. -/
def parsePattern (s : Str) : Option SimplePattern :=
  match s with
  | c :: rest =>
    if c = '^' then (parseBody rest).map (fun pr => ⟨true, pr.1, pr.2⟩)
    else (parseBody (c :: rest)).map (fun pr => ⟨false, pr.1, pr.2⟩)
  | [] => (parseBody []).map (fun pr => ⟨false, pr.1, pr.2⟩)

def elemMatch : RElem → Char → Bool
  | .lit x, c => decide (c = x)
  | .dot, c => decide (c ≠ '\n')

/-- Match a sequence of pattern elements against the front of a string,
returning the remaining suffix on success. -/
def consume : List RElem → Str → Option Str
  | [], rest => some rest
  | _ :: _, [] => none
  | e :: es, c :: cs => if elemMatch e c then consume es cs else none

/-- Try to match the pattern at one position (`t` is the suffix starting
there, `atStart` says whether that position is the start of the subject).
Returns the length of the match.  `$` succeeds at the very end or just
before a final newline, as in Python without `re.MULTILINE`. -/
def matchSuffix (p : SimplePattern) (atStart : Bool) (t : Str) : Option Nat :=
  if p.anchoredStart = true ∧ atStart = false then none
  else
    match consume p.elems t with
    | none => none
    | some rest =>
      if p.anchoredEnd = false ∨ rest = [] ∨ rest = ['\n'] then some p.elems.length
      else none

def reSearchAux (p : SimplePattern) : Bool → Str → Bool
  | atStart, [] => (matchSuffix p atStart []).isSome
  | atStart, c :: cs => (matchSuffix p atStart (c :: cs)).isSome || reSearchAux p false cs

/-- `pattern.search(s)`: does the pattern match at some position? -/
def reSearch (p : SimplePattern) (s : Str) : Bool := reSearchAux p true s

/-- Worker for `pattern.sub`: scan left to right, replacing each match;
an empty match emits the replacement and advances one character. -/
def reSubAux (p : SimplePattern) (r : Str) : Nat → Bool → Str → Str
  | 0, _, t => t
  | _ + 1, atStart, [] => if (matchSuffix p atStart []).isSome then r else []
  | fuel + 1, atStart, c :: cs =>
    match matchSuffix p atStart (c :: cs) with
    | none => c :: reSubAux p r fuel false cs
    | some n =>
      if n = 0 then r ++ c :: reSubAux p r fuel false cs
      else r ++ reSubAux p r fuel false ((c :: cs).drop n)

/-- `pattern.sub(r, s)`: replace every non-overlapping match. -/
def reSub (p : SimplePattern) (r s : Str) : Str := reSubAux p r (s.length + 1) true s

/-! ### Python string primitives -/

/-- Python `needle in hay` for strings (substring test). -/
def strContains (needle : Str) : Str → Bool
  | [] => needle.isPrefixOf []
  | c :: rest => needle.isPrefixOf (c :: rest) || strContains needle rest

/-- Worker for `str.replace` with a non-empty needle; `fuel` bounds the
recursion and is always at least the subject length at the call sites. -/
def pyReplaceAux (old new : Str) : Nat → Str → Str
  | 0, s => s
  | _ + 1, [] => []
  | fuel + 1, c :: rest =>
    if old.isPrefixOf (c :: rest) then new ++ pyReplaceAux old new fuel ((c :: rest).drop old.length)
    else c :: pyReplaceAux old new fuel rest

/-- Python `s.replace(old, new)` (all non-overlapping occurrences; an empty
`old` inserts `new` before every character and at the end). -/
def pyReplace (s old new : Str) : Str :=
  if old = [] then new ++ s.foldr (fun c acc => c :: new ++ acc) []
  else pyReplaceAux old new s.length s

/-- ASCII model of Python `str.lower`. -/
def pyLower (s : Str) : Str := s.map Char.toLower

/-- Python string `<=`: lexicographic comparison by code point. -/
def pyStrLe : Str → Str → Bool
  | [], _ => true
  | _ :: _, [] => false
  | a :: as, b :: bs => if a = b then pyStrLe as bs else decide (a < b)

def pyLe (a b : Str) : Prop := pyStrLe a b = true

instance : DecidableRel pyLe := fun a b => inferInstanceAs (Decidable (pyStrLe a b = true))

/-- Strict version of `pyLe`. -/
def pyLt (a b : Str) : Prop := pyLe a b ∧ a ≠ b

/-! ### Data model -/

/-- A cell value as seen through COM: absent (`None`) or a scalar,
already viewed through `str` where a claim needs it. -/
def strOfCell (v : Option Str) : Str := v.getD []

/-- A drawing shape with its own text, as enumerated by `sheet.Shapes`. -/
structure ComShape where
  name : Str
  text : Str
  deriving DecidableEq, Repr

/-- A worksheet as seen through the COM automation interface.  The used
range is the rectangle of `cells`, whose top-left cell sits at 1-based
coordinates (`top`, `left`).  Row heights and column widths are per-index
so that uniform sizing is an observable result, not a baked-in invariant. -/
structure ComSheet where
  name : Str
  top : Nat
  left : Nat
  cells : List (List (Option Str))
  shapes : List ComShape
  rowHeights : Nat → ℚ
  colWidths : Nat → ℚ

structure ComWorkbook where
  sheets : List ComSheet

/-- Observable state of the automation session after an operation:
disk content, whether the workbook handle is still open, and whether the
Excel application instance is still running. -/
structure ComState where
  disk : Option ComWorkbook
  wbOpen : Bool
  appRunning : Bool

/-- A cell of an `openpyxl` workbook: a value and a font name. -/
structure XlCell where
  value : Option Str
  font : Str
  deriving DecidableEq, Repr

structure XlSheet where
  name : Str
  rows : List (List XlCell)
  deriving DecidableEq, Repr

structure XlWorkbook where
  sheets : List XlSheet
  deriving DecidableEq, Repr

def sheetnames (wb : XlWorkbook) : List Str := wb.sheets.map XlSheet.name

/-! ### Location labels (`chr(cell.Column + 64)` etc.) -/

/-- `chr(col + 64)`: the single-character column label the code builds. -/
def colLetter (col : Nat) : Char := Char.ofNat (col + 64)

def natStr (n : Nat) : Str := (Nat.repr n).data

/-- The cell reference string `f"{col_letter}{cell.Row}"`. -/
def cellLabel (col row : Nat) : Str := colLetter col :: natStr row

/-- The shape label `f"図形: {shape_name}"`. -/
def shapeLabel (name : Str) : Str := "図形: ".data ++ name

/-- The correct base-26 spreadsheet column name (A, B, …, Z, AA, AB, …),
the reference point the specification measures `colLetter` against. -/
def colRefAux : Nat → Nat → Str
  | 0, _ => []
  | fuel + 1, c =>
    if c ≤ 26 then [Char.ofNat (64 + c)]
    else colRefAux fuel ((c - 1) / 26) ++ [Char.ofNat (64 + ((c - 1) % 26 + 1))]

def colRef (c : Nat) : Str := colRefAux c c

/-! ### Matching and replacement policy (`search_string_in_book`,
`replace_string_in_book`, lines 144–150 / 229–236 and the per-cell
branches) -/

/-- Pattern compilation, lines 144–150 and 229–236: when `use_regex`,
compile the search string (escaped and anchored when `exact_match`);
otherwise `pattern = None`.  The outer `Option` is `re.compile` raising
(equivalently, leaving the modelled fragment). -/
def buildPattern (exact_match use_regex : Bool) (search_string : Str) :
    Option (Option SimplePattern) :=
  if use_regex then
    (if exact_match then parsePattern ('^' :: (pyEscape search_string ++ ['$']))
     else parsePattern search_string).map some
  else some none

/-- The match test applied to each cell value and shape text
(lines 160–172 / 178–187). -/
def textMatches (exact_match use_regex : Bool) (pat : Option SimplePattern)
    (search_string text : Str) : Bool :=
  if use_regex then
    match pat with
    | some p => reSearch p text
    | none => false
  else if exact_match then decide (text = search_string)
  else strContains search_string text

/-- The new value computed for one cell value or shape text by
`replace_string_in_book` (lines 248–257 / 270–279). -/
def replaceTextStep (exact_match use_regex : Bool) (pat : Option SimplePattern)
    (search_string replace_string text : Str) : Str :=
  if use_regex then
    match pat with
    | some p => if reSearch p text then reSub p replace_string text else text
    | none => text
  else if exact_match then
    if text = search_string then replace_string else text
  else
    if strContains search_string text then pyReplace text search_string replace_string
    else text

/-! ### search_string_in_book -/

/-- One search record: (sheet name, location label, value). -/
abbrev SRecord := Str × Str × Str

/-- The cell scan of one sheet (lines 156–172): row-major over the used
range, recording `(sheet, f"{col_letter}{row}", value)` for each match. -/
def searchCells (exact_match use_regex : Bool) (pat : Option SimplePattern)
    (search_string : Str) (sh : ComSheet) : List SRecord :=
  sh.cells.enum.flatMap (fun p =>
    p.2.enum.filterMap (fun q =>
      let cv := strOfCell q.2
      if textMatches exact_match use_regex pat search_string cv then
        some (sh.name, cellLabel (sh.left + q.1) (sh.top + p.1), cv)
      else none))

/-- The shape scan of one sheet (lines 174–187). -/
def searchShapes (exact_match use_regex : Bool) (pat : Option SimplePattern)
    (search_string : Str) (sh : ComSheet) : List SRecord :=
  sh.shapes.filterMap (fun shp =>
    if textMatches exact_match use_regex pat search_string shp.text then
      some (sh.name, shapeLabel shp.name, shp.text)
    else none)

/-- Full traversal of the workbook by `search_string_in_book`. -/
def searchBook (exact_match use_regex : Bool) (pat : Option SimplePattern)
    (search_string : Str) (wb : ComWorkbook) : List SRecord :=
  wb.sheets.flatMap (fun sh =>
    searchCells exact_match use_regex pat search_string sh ++
    searchShapes exact_match use_regex pat search_string sh)

/-- `search_string_in_book` (lines 116–194).  The open is not guarded, so
an unopenable file raises with the freshly dispatched application still
running; on the normal path the workbook is closed without saving and the
application instance is quit. -/
def search_string_in_book (disk : Option ComWorkbook) (search_string : Str)
    (exact_match use_regex : Bool) : ComState × PyResult (List SRecord) :=
  match disk with
  | none => (⟨none, false, true⟩, .raised .openFailed)
  | some wb =>
    match buildPattern exact_match use_regex search_string with
    | none => (⟨some wb, true, true⟩, .raised .regexError)
    | some pat =>
      (⟨some wb, false, false⟩, .ok (searchBook exact_match use_regex pat search_string wb))

/-! ### replace_string_in_book -/

/-- One replace record: (sheet name, location label, old value, new value). -/
abbrev RRecord := Str × Str × Str × Str

/-- One cell of the replace traversal (lines 244–263): the new value is
written back, and a record emitted, exactly when it differs from the
original. -/
def replaceCell (exact_match use_regex : Bool) (pat : Option SimplePattern)
    (search_string replace_string sheetName : Str) (rowNum col : Nat)
    (v : Option Str) : Option Str × List RRecord :=
  let cv := strOfCell v
  let nv := replaceTextStep exact_match use_regex pat search_string replace_string cv
  if nv ≠ cv then (some nv, [(sheetName, cellLabel col rowNum, cv, nv)])
  else (v, [])

/-- One shape of the replace traversal (lines 266–284). -/
def replaceShape (exact_match use_regex : Bool) (pat : Option SimplePattern)
    (search_string replace_string sheetName : Str) (shp : ComShape) :
    ComShape × List RRecord :=
  let nv := replaceTextStep exact_match use_regex pat search_string replace_string shp.text
  if nv ≠ shp.text then ({ shp with text := nv }, [(sheetName, shapeLabel shp.name, shp.text, nv)])
  else (shp, [])

def replaceRow (exact_match use_regex : Bool) (pat : Option SimplePattern)
    (search_string replace_string sheetName : Str) (rowNum left : Nat)
    (row : List (Option Str)) : List (Option Str) × List RRecord :=
  let processed := row.enum.map (fun q =>
    replaceCell exact_match use_regex pat search_string replace_string sheetName
      rowNum (left + q.1) q.2)
  (processed.map Prod.fst, processed.flatMap Prod.snd)

def replaceSheet (exact_match use_regex : Bool) (pat : Option SimplePattern)
    (search_string replace_string : Str) (sh : ComSheet) : ComSheet × List RRecord :=
  let rowsP := sh.cells.enum.map (fun p =>
    replaceRow exact_match use_regex pat search_string replace_string sh.name
      (sh.top + p.1) sh.left p.2)
  let shapesP := sh.shapes.map (fun shp =>
    replaceShape exact_match use_regex pat search_string replace_string sh.name shp)
  ({ sh with cells := rowsP.map Prod.fst, shapes := shapesP.map Prod.fst },
   rowsP.flatMap Prod.snd ++ shapesP.flatMap Prod.snd)

def replaceBook (exact_match use_regex : Bool) (pat : Option SimplePattern)
    (search_string replace_string : Str) (wb : ComWorkbook) : ComWorkbook × List RRecord :=
  let sheetsP := wb.sheets.map (fun sh =>
    replaceSheet exact_match use_regex pat search_string replace_string sh)
  (⟨sheetsP.map Prod.fst⟩, sheetsP.flatMap Prod.snd)

/-- `replace_string_in_book` (lines 196–291).  The open is wrapped in
`try/except`: an unopenable file is reported and `[]` returned (the
dispatched application instance keeps running); on the normal path the
workbook is saved, closed, and the application quit. -/
def replace_string_in_book (disk : Option ComWorkbook) (search_string replace_string : Str)
    (exact_match use_regex : Bool) : ComState × PyResult (List RRecord) :=
  match disk with
  | none => (⟨none, false, true⟩, .ok [])
  | some wb =>
    match buildPattern exact_match use_regex search_string with
    | none => (⟨some wb, true, true⟩, .raised .regexError)
    | some pat =>
      let res := replaceBook exact_match use_regex pat search_string replace_string wb
      (⟨some res.1, false, false⟩, .ok res.2)

/-! ### set_grid_size -/

/-- Python distinguishes the `None` of the normal path from the `[]`
returned when the open fails. -/
inductive GridRet where
  | pyNone
  | pyEmptyList
  deriving DecidableEq, Repr

/-- `ws.Cells.RowHeight = row_size; ws.Cells.ColumnWidth = col_size`
(lines 321–322): uniform over the whole sheet. -/
def setSheetGrid (rowSize colSize : ℚ) (sh : ComSheet) : ComSheet :=
  { sh with rowHeights := fun _ => rowSize, colWidths := fun _ => colSize }

/-- The workbook after `set_grid_size` sizes the named sheet with
`row_size = pixel_size * 0.75` and `col_size = pixel_size * 0.14`
(lines 316–322). -/
def gridUpdate (wb : ComWorkbook) (sheetN : Str) (px : ℤ) : ComWorkbook :=
  ⟨wb.sheets.map (fun sh =>
    if sh.name = sheetN then setSheetGrid ((px : ℚ) * 0.75) ((px : ℚ) * 0.14) sh else sh)⟩

/-- `set_grid_size` (lines 293–330).  A failed open is caught, reported
and `[]` returned; otherwise the sheet is sized, the workbook saved and
closed (`wb.Close(True)`), and — a faithful detail — `excel.Quit()` is
never called, so the application instance keeps running. -/
def set_grid_size (disk : Option ComWorkbook) (sheetN : Str) (px : ℤ) :
    ComState × PyResult GridRet :=
  match disk with
  | none => (⟨none, false, true⟩, .ok .pyEmptyList)
  | some wb =>
    if sheetN ∈ wb.sheets.map ComSheet.name then
      (⟨some (gridUpdate wb sheetN px), false, true⟩, .ok .pyNone)
    else (⟨some wb, true, true⟩, .raised .comError)

/-! ### openpyxl-backed operations -/

/-- `get_sheets_name` (lines 36–45): open failures propagate. -/
def get_sheets_name (disk : Option XlWorkbook) : PyResult (List Str) :=
  match disk with
  | none => .raised .openFailed
  | some wb => .ok (sheetnames wb)

/-- `sort_sheet` (lines 47–64): the order argument is lowercased and
validated before the workbook is opened; `sorted(..., reverse=…)` is a
stable sort, so the descending result equals the reversed ascending one. -/
def sort_sheet (disk : Option XlWorkbook) (order : Str) : PyResult (List Str) :=
  let o := pyLower order
  if o = "asc".data ∨ o = "desc".data then
    match disk with
    | none => .raised .openFailed
    | some wb =>
      .ok (if o = "desc".data then (List.insertionSort pyLe (sheetnames wb)).reverse
           else List.insertionSort pyLe (sheetnames wb))
  else .raised .valueError

/-- `convert_csv` (lines 66–89), modelled as returning the rows written
to the CSV file; a missing sheet raises a dedicated `ValueError` after an
explicit existence check, and nothing is saved. -/
def convert_csv (disk : Option XlWorkbook) (sheetN : Str) : PyResult (List (List Str)) :=
  match disk with
  | none => .raised .openFailed
  | some wb =>
    if sheetN ∈ sheetnames wb then
      .ok (((wb.sheets.find? (fun sh => sh.name == sheetN)).getD ⟨[], []⟩).rows.map
        (fun row => row.map (fun c => strOfCell c.value)))
    else .raised .valueError

/-- `change_font` (lines 91–114): the unvalidated `wb[sheet_name]` lookup
raises `KeyError` for a missing sheet before any cell is touched and
before `wb.save`, so the disk content is unchanged on that error. -/
def change_font (disk : Option XlWorkbook) (sheetN fontN : Str) :
    Option XlWorkbook × PyResult Unit :=
  match disk with
  | none => (none, .raised .openFailed)
  | some wb =>
    if sheetN ∈ sheetnames wb then
      (some ⟨wb.sheets.map (fun sh =>
        if sh.name = sheetN then
          ⟨sh.name, sh.rows.map (fun row => row.map (fun c => ⟨c.value, fontN⟩))⟩
        else sh)⟩, .ok ())
    else (some wb, .raised .keyError)

/-! ### Totals used by the empty-search claim -/

def totalCells (wb : ComWorkbook) : Nat :=
  (wb.sheets.map (fun sh => (sh.cells.map List.length).sum)).sum

def totalShapes (wb : ComWorkbook) : Nat :=
  (wb.sheets.map (fun sh => sh.shapes.length)).sum

/-! ### Concrete workbooks used as test inputs -/

/-- One sheet, one cell holding `"abcxyz"`. -/
def wbAbc : ComWorkbook :=
  ⟨[⟨"Sheet1".data, 1, 1, [[some "abcxyz".data]], [], fun _ => 0, fun _ => 0⟩]⟩

/-- One sheet, one cell holding exactly `"abc"`. -/
def wbAbc2 : ComWorkbook :=
  ⟨[⟨"Sheet1".data, 1, 1, [[some "abc".data]], [], fun _ => 0, fun _ => 0⟩]⟩

/-- One sheet with cells `"foobar"` and `"hello"` in one row. -/
def wbFoo : ComWorkbook :=
  ⟨[⟨"Sheet1".data, 1, 1, [[some "foobar".data, some "hello".data]], [], fun _ => 0, fun _ => 0⟩]⟩

/-- An `openpyxl` workbook with sheets named "b" and "a". -/
def wbSort : XlWorkbook :=
  ⟨[⟨"b".data, [[⟨some "x".data, "Calibri".data⟩]]⟩, ⟨"a".data, []⟩]⟩

/-- A COM workbook with one sheet named "S" for the grid-sizing claims. -/
def wbGrid : ComWorkbook :=
  ⟨[⟨"S".data, 1, 1, [[some "x".data]], [], fun _ => 5, fun _ => 7⟩]⟩

/-! ### Lemmas on the regex model -/

lemma special_not_alnum {c : Char} (h : isSpecialChar c = true) :
    (c.isAlpha || c.isDigit) = false := by
  have hall : ∀ c ∈ specialChars, (c.isAlpha || c.isDigit) = false := by decide
  exact hall c (of_decide_eq_true h)

lemma meta_mem_special : ∀ c ∈ metaChars, c ∈ specialChars := by decide

lemma pyEscape_cons (c : Char) (s : Str) :
    pyEscape (c :: s) = (if isSpecialChar c then ['\\', c] else [c]) ++ pyEscape s := rfl

lemma parse_escape : ∀ s : Str, parseBody (pyEscape s ++ ['$']) = some (s.map RElem.lit, true) := by
  intro s
  induction s with
  | nil => rfl
  | cons c s ih =>
    rw [pyEscape_cons, List.append_assoc]
    by_cases hc : isSpecialChar c = true
    · rw [if_pos hc]
      simp [parseBody, special_not_alnum hc, ih]
    · rw [if_neg hc]
      have hmem : c ∉ specialChars := by
        intro hmm
        exact hc (decide_eq_true hmm)
      have h1 : c ≠ '\\' := fun he => hmem (he ▸ (by decide : ('\\' : Char) ∈ specialChars))
      have h2 : c ≠ '$' := fun he => hmem (he ▸ (by decide : ('$' : Char) ∈ specialChars))
      have h3 : c ≠ '.' := fun he => hmem (he ▸ (by decide : ('.' : Char) ∈ specialChars))
      have h4 : isMetaChar c = false := by
        apply decide_eq_false
        intro hmm
        exact hmem (meta_mem_special c hmm)
      rw [List.singleton_append, parseBody.eq_def]
      dsimp only
      rw [if_neg h1, if_neg h2, if_neg h3, h4]
      simp [ih]

lemma buildPattern_exact (s : Str) :
    buildPattern true true s = some (some ⟨true, s.map RElem.lit, true⟩) := by
  simp [buildPattern, parsePattern, parse_escape s]

lemma consume_lit : ∀ (s v r : Str), consume (s.map RElem.lit) v = some r ↔ v = s ++ r := by
  intro s
  induction s with
  | nil => intro v r; simp [consume]
  | cons a as ih =>
    intro v r
    cases v with
    | nil => simp [consume]
    | cons c cs =>
      by_cases hca : c = a
      · subst hca; simp [consume, elemMatch, ih]
      · simp [consume, elemMatch, hca]

lemma reSearchAux_anchored {p : SimplePattern} (hp : p.anchoredStart = true) :
    ∀ t, reSearchAux p false t = false := by
  intro t
  induction t with
  | nil => simp [reSearchAux, matchSuffix, hp]
  | cons c cs ih => simp [reSearchAux, matchSuffix, hp, ih]

lemma reSearch_anchored (p : SimplePattern) (hp : p.anchoredStart = true) (v : Str) :
    reSearch p v = (matchSuffix p true v).isSome := by
  cases v with
  | nil => rfl
  | cons c cs => simp [reSearch, reSearchAux, reSearchAux_anchored hp]

lemma matchSuffix_exact (s v : Str) :
    (matchSuffix ⟨true, s.map RElem.lit, true⟩ true v).isSome = true ↔
      v = s ∨ v = s ++ ['\n'] := by
  simp only [matchSuffix]
  rw [if_neg (by simp)]
  constructor
  · intro h
    cases hc : consume (s.map RElem.lit) v with
    | none => rw [hc] at h; simp at h
    | some rest =>
      rw [hc] at h
      have hv := (consume_lit s v rest).mp hc
      have h' : (if true = false ∨ rest = [] ∨ rest = ['\n']
          then some (s.map RElem.lit).length else none).isSome = true := h
      by_cases hr : rest = [] ∨ rest = ['\n']
      · rcases hr with rfl | rfl
        · left; simpa using hv
        · right; exact hv
      · rw [if_neg (by simpa using hr)] at h'
        simp at h'
  · intro h
    have hex : ∃ rest, (rest = [] ∨ rest = ['\n']) ∧
        consume (s.map RElem.lit) v = some rest := by
      rcases h with h | h
      · exact ⟨[], Or.inl rfl, (consume_lit s v []).mpr (by simpa using h)⟩
      · exact ⟨['\n'], Or.inr rfl, (consume_lit s v ['\n']).mpr h⟩
    rcases hex with ⟨rest, hr, hc⟩
    rw [hc]
    have h' : (if true = false ∨ rest = [] ∨ rest = ['\n']
        then some (s.map RElem.lit).length else none).isSome = true := by
      rw [if_pos (Or.inr hr)]; rfl
    exact h'

lemma reSearch_exact (s v : Str) :
    reSearch ⟨true, s.map RElem.lit, true⟩ v = true ↔ v = s ∨ v = s ++ ['\n'] := by
  rw [reSearch_anchored _ rfl]
  exact matchSuffix_exact s v

/-- The matching behaviour the claim sentence describes for exact-match
regex mode, following the spec words: compile the search string itself as
a pattern (metacharacters keep their meaning) and anchor it so the whole
text must match. -/
def claimedExactRegexMatch (s v : Str) : Bool :=
  match parsePattern s with
  | some p => reSearch { p with anchoredStart := true, anchoredEnd := true } v
  | none => false

/-! ### Claim C1 -/

/-- C1 (amended): when the regex flag is set the search string is compiled
as a pattern, but when the exact-match flag is also set the search string
is first regex-escaped and then anchored at both ends, so metacharacters
are treated literally: a cell or shape text matches iff it equals the
search string itself (or the search string followed by a final newline). -/
theorem claim_c1 (s v : Str) :
    buildPattern true true s = some (some ⟨true, s.map RElem.lit, true⟩) ∧
    (reSearch ⟨true, s.map RElem.lit, true⟩ v = true ↔ v = s ∨ v = s ++ ['\n']) :=
  ⟨buildPattern_exact s, reSearch_exact s v⟩

/-- C1 counterexample: with regex and exact-match both set and search
string `"a.c"`, a cell holding `"abc"` fully matches the regex `a.c`
(metacharacters keeping their meaning, as the claim states), yet the
code's search reports no match, because the code escapes the search
string before anchoring it. -/
theorem claim_c1_counterexample :
    claimedExactRegexMatch "a.c".data "abc".data = true ∧
    (search_string_in_book (some wbAbc2) "a.c".data true true).2 = .ok [] := by
  constructor
  · decide
  · decide

/-! ### Claim C2 -/

/-- C2: replace and grid-sizing catch a failed open and return an empty
result (with the dispatched application left running), so their callers
see the same `[]` as for a workbook with no matches, while the
pure-library operations (sheet listing, sorting, CSV export, font change)
let the open failure propagate. -/
theorem claim_c2 (s r sheetN : Str) (em ur : Bool) (px : ℤ) :
    replace_string_in_book none s r em ur = (⟨none, false, true⟩, .ok []) ∧
    set_grid_size none sheetN px = (⟨none, false, true⟩, .ok .pyEmptyList) ∧
    get_sheets_name none = .raised .openFailed ∧
    sort_sheet none "asc".data = .raised .openFailed ∧
    convert_csv none sheetN = .raised .openFailed ∧
    (change_font none sheetN s).2 = .raised .openFailed ∧
    (replace_string_in_book (some wbFoo) "xyz".data "q".data false false).2 = .ok [] := by
  refine ⟨rfl, rfl, rfl, by decide, rfl, rfl, by decide⟩

/-! ### Claim C3 -/

/-- The workbook `wbFoo` after replacing `"foo"` by `"bar"`. -/
def wbFooAfter : ComWorkbook :=
  ⟨[⟨"Sheet1".data, 1, 1, [[some "barbar".data, some "hello".data]], [], fun _ => 0, fun _ => 0⟩]⟩

/-- C3: a cell (or shape) visited by the replace traversal is written back
exactly when the computed new value differs from the original, and exactly
then one (sheet, location, old, new) record is emitted; concretely,
literal replacement `"foo"` → `"bar"` on a workbook with cells
`"foobar"` and `"hello"` rewrites only the first cell, to `"barbar"`,
and returns the single record `("Sheet1", "A1", "foobar", "barbar")`. -/
theorem claim_c3 (em ur : Bool) (pat : Option SimplePattern) (s r nm : Str)
    (rowNum col : Nat) (v : Option Str) (shp : ComShape) :
    ((replaceCell em ur pat s r nm rowNum col v).1 ≠ v ↔
      (replaceCell em ur pat s r nm rowNum col v).2 ≠ []) ∧
    ((replaceCell em ur pat s r nm rowNum col v).2 ≠ [] →
      replaceCell em ur pat s r nm rowNum col v =
        (some (replaceTextStep em ur pat s r (strOfCell v)),
         [(nm, cellLabel col rowNum, strOfCell v,
           replaceTextStep em ur pat s r (strOfCell v))])) ∧
    ((replaceShape em ur pat s r nm shp).1 ≠ shp ↔
      (replaceShape em ur pat s r nm shp).2 ≠ []) ∧
    ((replaceShape em ur pat s r nm shp).2 ≠ [] →
      replaceShape em ur pat s r nm shp =
        ({ shp with text := replaceTextStep em ur pat s r shp.text },
         [(nm, shapeLabel shp.name, shp.text, replaceTextStep em ur pat s r shp.text)])) ∧
    replace_string_in_book (some wbFoo) "foo".data "bar".data false false =
      (⟨some wbFooAfter, false, false⟩,
       .ok [("Sheet1".data, "A1".data, "foobar".data, "barbar".data)]) := by
  refine ⟨?_, ?_, ?_, ?_, ?_⟩
  · by_cases h : replaceTextStep em ur pat s r (strOfCell v) = strOfCell v
    · simp [replaceCell, h]
    · cases v with
      | none => simp [replaceCell, h]
      | some x =>
        simp only [strOfCell, Option.getD_some] at h
        simp [replaceCell, strOfCell, h]
  · intro hne
    by_cases h : replaceTextStep em ur pat s r (strOfCell v) = strOfCell v
    · exfalso; apply hne; simp [replaceCell, h]
    · simp [replaceCell, h]
  · by_cases h : replaceTextStep em ur pat s r shp.text = shp.text
    · simp [replaceShape, h]
    · cases shp with
      | mk nm2 tx =>
        simp only at h
        simp [replaceShape, h, ComShape.mk.injEq]
  · intro hne
    by_cases h : replaceTextStep em ur pat s r shp.text = shp.text
    · exfalso; apply hne; simp [replaceShape, h]
    · simp [replaceShape, h]
  · rfl

/-- Witness for C3 at a concrete cell where the value changes. -/
theorem claim_c3_witness :
    (replaceCell false false none "a".data "b".data "S".data 1 1 (some "a".data)).1 ≠
      some "a".data ∧
    replaceCell false false none "a".data "b".data "S".data 1 1 (some "a".data) =
      (some (replaceTextStep false false none "a".data "b".data (strOfCell (some "a".data))),
       [("S".data, cellLabel 1 1, strOfCell (some "a".data),
         replaceTextStep false false none "a".data "b".data (strOfCell (some "a".data)))]) := by
  have h := claim_c3 false false none "a".data "b".data "S".data 1 1 (some "a".data)
    ⟨"sh".data, "t".data⟩
  exact ⟨h.1.mpr (by decide), h.2.1 (by decide)⟩

/-! ### Claim C4 -/

/-- C4: with regex mode off, a cell matches by literal substring when
exact-match is off and by full equality when exact-match is on; cell
values are stringified with `None` becoming the empty string.  Concretely,
searching `"abc"` over a cell `"abcxyz"` matches with exact-match off,
does not match with exact-match on, and a cell holding exactly `"abc"`
matches with exact-match on. -/
theorem claim_c4 (s : Str) (v : Option Str) :
    (textMatches false false none s (strOfCell v) = strContains s (strOfCell v)) ∧
    (textMatches true false none s (strOfCell v) = decide (strOfCell v = s)) ∧
    strOfCell none = ([] : Str) ∧
    (search_string_in_book (some wbAbc) "abc".data false false).2 =
      .ok [("Sheet1".data, "A1".data, "abcxyz".data)] ∧
    (search_string_in_book (some wbAbc) "abc".data true false).2 = .ok [] ∧
    (search_string_in_book (some wbAbc2) "abc".data true false).2 =
      .ok [("Sheet1".data, "A1".data, "abc".data)] :=
  ⟨rfl, rfl, rfl, by decide, by decide, by decide⟩

/-! ### Order theory of Python string comparison -/

lemma pyStrLe_total : ∀ a b : Str, pyStrLe a b = true ∨ pyStrLe b a = true := by
  intro a
  induction a with
  | nil => intro b; left; rfl
  | cons x xs ih =>
    intro b
    cases b with
    | nil => right; rfl
    | cons y ys =>
      by_cases hxy : x = y
      · subst hxy
        rcases ih ys with h | h
        · left; simpa [pyStrLe] using h
        · right; simpa [pyStrLe] using h
      · rcases lt_trichotomy x y with h | h | h
        · left; simp [pyStrLe, hxy]; exact h
        · exact absurd h hxy
        · right
          have hyx : y ≠ x := fun he => hxy he.symm
          simp [pyStrLe, hyx]; exact h

lemma pyStrLe_trans : ∀ a b c : Str,
    pyStrLe a b = true → pyStrLe b c = true → pyStrLe a c = true := by
  intro a
  induction a with
  | nil => intro b c _ _; rfl
  | cons x xs ih =>
    intro b c hab hbc
    cases b with
    | nil => simp [pyStrLe] at hab
    | cons y ys =>
      cases c with
      | nil => simp [pyStrLe] at hbc
      | cons z zs =>
        by_cases hxy : x = y
        · subst hxy
          by_cases hyz : x = z
          · subst hyz
            simp only [pyStrLe, if_pos rfl] at hab hbc ⊢
            exact ih ys zs hab hbc
          · simp [pyStrLe, hyz] at hbc ⊢
            exact hbc
        · by_cases hyz : y = z
          · subst hyz
            simp [pyStrLe, hxy] at hab ⊢
            exact hab
          · simp [pyStrLe, hxy] at hab
            simp [pyStrLe, hyz] at hbc
            have hxz : x < z := lt_trans hab hbc
            simp [pyStrLe, ne_of_lt hxz]
            exact hxz

lemma pyStrLe_antisymm : ∀ a b : Str,
    pyStrLe a b = true → pyStrLe b a = true → a = b := by
  intro a
  induction a with
  | nil =>
    intro b _ hba
    cases b with
    | nil => rfl
    | cons y ys => simp [pyStrLe] at hba
  | cons x xs ih =>
    intro b hab hba
    cases b with
    | nil => simp [pyStrLe] at hab
    | cons y ys =>
      by_cases hxy : x = y
      · subst hxy
        simp only [pyStrLe, if_pos rfl] at hab hba
        rw [ih ys hab hba]
      · have hyx : y ≠ x := fun he => hxy he.symm
        simp [pyStrLe, hxy] at hab
        simp [pyStrLe, hyx] at hba
        exact absurd (lt_trans hab hba) (lt_irrefl x)

instance : IsTotal Str pyLe := ⟨pyStrLe_total⟩

instance : IsTrans Str pyLe := ⟨pyStrLe_trans⟩

/-! ### Claim C5 -/

/-- C5 (amended): the sheet-sorting operation returns the same multiset of
sheet names in strict ascending (or descending) case-sensitive
lexicographic order when the lowercased order argument is `asc` (resp.
`desc`), and signals an invalid-argument failure exactly for order values
whose lowercasing is neither `asc` nor `desc` — the validity check is
case-insensitive, not limited to the two literal values. -/
theorem claim_c5 (wb : XlWorkbook) (order : Str) :
    (pyLower order ≠ "asc".data ∧ pyLower order ≠ "desc".data →
      sort_sheet (some wb) order = .raised .valueError) ∧
    (pyLower order = "asc".data →
      sort_sheet (some wb) order = .ok (List.insertionSort pyLe (sheetnames wb)) ∧
      List.Perm (List.insertionSort pyLe (sheetnames wb)) (sheetnames wb) ∧
      ((sheetnames wb).Nodup →
        (List.insertionSort pyLe (sheetnames wb)).Pairwise pyLt)) ∧
    (pyLower order = "desc".data →
      sort_sheet (some wb) order = .ok (List.insertionSort pyLe (sheetnames wb)).reverse ∧
      List.Perm (List.insertionSort pyLe (sheetnames wb)).reverse (sheetnames wb) ∧
      ((sheetnames wb).Nodup →
        (List.insertionSort pyLe (sheetnames wb)).reverse.Pairwise (fun a b => pyLt b a))) := by
  have hstrict : (sheetnames wb).Nodup →
      (List.insertionSort pyLe (sheetnames wb)).Pairwise pyLt := by
    intro hnd
    have hs : List.Sorted pyLe (List.insertionSort pyLe (sheetnames wb)) :=
      List.sorted_insertionSort pyLe (sheetnames wb)
    have hnd2 : (List.insertionSort pyLe (sheetnames wb)).Nodup :=
      ((List.perm_insertionSort pyLe (sheetnames wb)).nodup_iff).mpr hnd
    exact List.Pairwise.and hs hnd2
  refine ⟨?_, ?_, ?_⟩
  · rintro ⟨h1, h2⟩
    simp [sort_sheet, h1, h2]
  · intro h
    have hne : ("asc".data : Str) ≠ "desc".data := by decide
    refine ⟨by simp [sort_sheet, h, hne], List.perm_insertionSort pyLe (sheetnames wb), hstrict⟩
  · intro h
    refine ⟨by simp [sort_sheet, h],
      (List.reverse_perm _).trans (List.perm_insertionSort pyLe (sheetnames wb)),
      fun hnd => ?_⟩
    exact List.pairwise_reverse.mpr (hstrict hnd)

/-- C5 counterexample: `"ASC"` is not one of the two accepted values
`'asc'`/`'desc'`, yet the code lowercases the argument first, so the call
succeeds instead of signalling the invalid-argument failure the claim
requires for every other order value. -/
theorem claim_c5_counterexample :
    "ASC".data ≠ "asc".data ∧ "ASC".data ≠ "desc".data ∧
    sort_sheet (some wbSort) "ASC".data = .ok ["a".data, "b".data] :=
  ⟨by decide, by decide, by decide⟩

/-- Witness for C5 at a concrete workbook and order value. -/
theorem claim_c5_witness :
    sort_sheet (some wbSort) "asc".data = .ok (List.insertionSort pyLe (sheetnames wbSort)) ∧
    (List.insertionSort pyLe (sheetnames wbSort)).Pairwise pyLt := by
  have h := (claim_c5 wbSort "asc".data).2.1 (by decide)
  exact ⟨h.1, h.2.2 (by decide)⟩

/-! ### Claim C6 -/

lemma colRefAux_pos (fuel c : Nat) : 1 ≤ (colRefAux (fuel + 1) c).length := by
  rw [colRefAux]
  by_cases hc : c ≤ 26
  · rw [if_pos hc]; simp
  · rw [if_neg hc]; simp

lemma colRef_length_ge_two {c : Nat} (h : 26 < c) : 2 ≤ (colRef c).length := by
  unfold colRef
  obtain ⟨k, rfl⟩ : ∃ k, c = k + 1 := ⟨c - 1, by omega⟩
  rw [colRefAux, if_neg (by omega)]
  rw [List.length_append]
  obtain ⟨j, rfl⟩ : ∃ j, k = j + 1 := ⟨k - 1, by omega⟩
  have := colRefAux_pos j ((j + 1 + 1 - 1) / 26)
  simp only [List.length_cons, List.length_nil]
  omega

/-- C6: each cell's location label is `chr(column + 64)` followed by the
row number; this agrees with the correct base-26 column name exactly for
columns 1–26, and for every larger column index it yields one character
that cannot be the correct (multi-letter) reference — e.g. column 27 gives
`'['` instead of `"AA"`. -/
theorem claim_c6 (c rowNum : Nat) :
    (1 ≤ c → c ≤ 26 → [colLetter c] = colRef c) ∧
    (26 < c → [colLetter c] ≠ colRef c) ∧
    colLetter 27 = '[' ∧
    cellLabel c rowNum = colLetter c :: natStr rowNum := by
  refine ⟨?_, ?_, by decide, rfl⟩
  · intro h1 h2
    interval_cases c <;> decide
  · intro h hEq
    have h2 := colRef_length_ge_two h
    rw [← hEq] at h2
    simp at h2

/-- Witness for C6 at columns 3 and 27. -/
theorem claim_c6_witness :
    [colLetter 3] = colRef 3 ∧ [colLetter 27] ≠ colRef 27 :=
  ⟨(claim_c6 3 1).1 (by decide) (by decide), (claim_c6 27 1).2.1 (by decide)⟩

/-! ### Claim C7 -/

/-- C7: grid sizing sets the row height to exactly `0.75 × pixel_size` and
the column width to exactly `0.14 × pixel_size`, uniformly over every row
and column index of the named sheet; for pixel size 20 these are 15 and
2.8. -/
theorem claim_c7 (wb : ComWorkbook) (sheetN : Str) (px : ℤ)
    (h : sheetN ∈ wb.sheets.map ComSheet.name) :
    set_grid_size (some wb) sheetN px =
      (⟨some (gridUpdate wb sheetN px), false, true⟩, .ok .pyNone) ∧
    ∀ sh ∈ (gridUpdate wb sheetN px).sheets, sh.name = sheetN →
      (∀ i, sh.rowHeights i = (px : ℚ) * 0.75) ∧
      (∀ j, sh.colWidths j = (px : ℚ) * 0.14) ∧
      (px = 20 → (∀ i, sh.rowHeights i = 15) ∧ (∀ j, sh.colWidths j = 2.8)) := by
  constructor
  · simp [set_grid_size, h]
  · intro sh hmem hname
    simp only [gridUpdate, List.mem_map] at hmem
    obtain ⟨sh0, hs0, rfl⟩ := hmem
    by_cases hn : sh0.name = sheetN
    · rw [if_pos hn]
      refine ⟨fun i => rfl, fun j => rfl, fun hpx => ⟨fun i => ?_, fun j => ?_⟩⟩
      · subst hpx; norm_num [setSheetGrid]
      · subst hpx; norm_num [setSheetGrid]
    · rw [if_neg hn] at hname
      exact absurd hname hn

/-- Witness for C7 at a concrete workbook, sheet and pixel size 20. -/
theorem claim_c7_witness :
    set_grid_size (some wbGrid) "S".data 20 =
      (⟨some (gridUpdate wbGrid "S".data 20), false, true⟩, .ok .pyNone) ∧
    ∀ sh ∈ (gridUpdate wbGrid "S".data 20).sheets, sh.name = "S".data →
      (∀ i, sh.rowHeights i = ((20 : ℤ) : ℚ) * 0.75) ∧
      (∀ j, sh.colWidths j = ((20 : ℤ) : ℚ) * 0.14) ∧
      ((20 : ℤ) = 20 → (∀ i, sh.rowHeights i = 15) ∧ (∀ j, sh.colWidths j = 2.8)) :=
  claim_c7 wbGrid "S".data 20 (by decide)

/-! ### Claim C8 -/

/-- C8: the search operation is read-only — on the normal path (the
pattern compiles) the disk content is unchanged, the workbook handle is
closed without saving and the application instance is quit, and the call
returns exactly the accumulated match records. -/
theorem claim_c8 (wb : ComWorkbook) (s : Str) (em ur : Bool) (pat : Option SimplePattern)
    (h : buildPattern em ur s = some pat) :
    search_string_in_book (some wb) s em ur =
      (⟨some wb, false, false⟩, .ok (searchBook em ur pat s wb)) := by
  simp [search_string_in_book, h]

/-- Witness for C8 at a concrete workbook in literal mode. -/
theorem claim_c8_witness :
    search_string_in_book (some wbAbc) "x".data false false =
      (⟨some wbAbc, false, false⟩, .ok (searchBook false false none "x".data wbAbc)) :=
  claim_c8 wbAbc "x".data false false none rfl

/-! ### Claim C9 -/

lemma strContains_nil (hay : Str) : strContains [] hay = true := by
  cases hay <;> simp [strContains, List.isPrefixOf]

lemma textMatches_nil (v : Str) : textMatches false false none [] v = true := by
  simp [textMatches, strContains_nil]

lemma length_filterMap_all {α β : Type} (g : α → Option β) (l : List α)
    (h : ∀ x ∈ l, (g x).isSome = true) : (l.filterMap g).length = l.length := by
  induction l with
  | nil => rfl
  | cons a t ih =>
    cases hg : g a with
    | none => exact absurd (h a (by simp)) (by simp [hg])
    | some b =>
      rw [List.filterMap_cons, hg]
      simp only [List.length_cons]
      rw [ih (fun x hx => h x (by simp [hx]))]

lemma length_flatMap_sum {α β : Type} (l : List α) (f : α → List β) :
    (l.flatMap f).length = (l.map (fun a => (f a).length)).sum := by
  induction l with
  | nil => rfl
  | cons a t ih => simp [ih]

lemma sum_map_add {α : Type} (l : List α) (f g : α → Nat) :
    (l.map (fun a => f a + g a)).sum = (l.map f).sum + (l.map g).sum := by
  induction l with
  | nil => rfl
  | cons a t ih =>
    simp only [List.map_cons, List.sum_cons, ih]
    omega

lemma searchCells_nil_len (sh : ComSheet) :
    (searchCells false false none [] sh).length = (sh.cells.map List.length).sum := by
  unfold searchCells
  rw [length_flatMap_sum]
  have hrow : ∀ p : Nat × List (Option Str),
      (p.2.enum.filterMap (fun q =>
        if textMatches false false none [] (strOfCell q.2) then
          some (sh.name, cellLabel (sh.left + q.1) (sh.top + p.1), strOfCell q.2)
        else none)).length = p.2.length := by
    intro p
    rw [length_filterMap_all]
    · exact List.enum_length
    · intro x hx; simp [textMatches_nil]
  simp only [hrow]
  have h2 : sh.cells.enum.map (fun p => p.2.length) = sh.cells.map List.length := by
    calc sh.cells.enum.map (fun p => p.2.length)
        = (sh.cells.enum.map Prod.snd).map List.length := by rw [List.map_map]; rfl
      _ = sh.cells.map List.length := by rw [List.enum_map_snd]
  rw [h2]

lemma searchShapes_nil_len (sh : ComSheet) :
    (searchShapes false false none [] sh).length = sh.shapes.length := by
  unfold searchShapes
  rw [length_filterMap_all]
  intro x hx; simp [textMatches_nil]

/-- C9: with regex and exact-match off, searching for the empty string
matches every cell of every sheet's used range (absent values stringify to
the empty string) and every shape, so the search returns exactly one
record per cell and per shape of the workbook. -/
theorem claim_c9 (wb : ComWorkbook) :
    (search_string_in_book (some wb) [] false false).2 =
      .ok (searchBook false false none [] wb) ∧
    (searchBook false false none [] wb).length = totalCells wb + totalShapes wb := by
  constructor
  · rfl
  · unfold searchBook totalCells totalShapes
    rw [length_flatMap_sum]
    have hpt : ∀ sh : ComSheet,
        (searchCells false false none [] sh ++ searchShapes false false none [] sh).length =
          (sh.cells.map List.length).sum + sh.shapes.length := by
      intro sh
      rw [List.length_append, searchCells_nil_len, searchShapes_nil_len]
    simp only [hpt]
    rw [sum_map_add]

/-! ### Claim C10 -/

/-- C10: the font-change operation does not validate the sheet name — for
a missing sheet the subscript lookup raises (`KeyError`) before any cell
is modified and before any save, leaving the disk content unchanged;
CSV export instead raises a dedicated invalid-argument failure
(`ValueError`) after an explicit existence check. -/
theorem claim_c10 (wb : XlWorkbook) (sheetN fontN : Str) (h : sheetN ∉ sheetnames wb) :
    change_font (some wb) sheetN fontN = (some wb, .raised .keyError) ∧
    convert_csv (some wb) sheetN = .raised .valueError ∧
    PyError.keyError ≠ PyError.valueError := by
  refine ⟨?_, ?_, by decide⟩
  · simp [change_font, h]
  · simp [convert_csv, h]

/-- Witness for C10 at a concrete workbook and missing sheet name. -/
theorem claim_c10_witness :
    change_font (some wbSort) "Nope".data "Arial".data = (some wbSort, .raised .keyError) ∧
    convert_csv (some wbSort) "Nope".data = .raised .valueError ∧
    PyError.keyError ≠ PyError.valueError :=
  claim_c10 wbSort "Nope".data "Arial".data (by decide)

end ExcelOp
